import Mathlib

/-!
Verification of the ctrld DNS forwarding proxy against its specification.

The Go source is embedded shallowly: pure functions become Lean functions,
the stateful pieces (the loop table, the DHCP client-info table, the ISC
lease-parser scanner state) become explicit state passing.  Go maps are
modelled as association lists where a store prepends and a lookup takes the
first match; machine-level details that no claim depends on (network I/O,
logging, file watching) are modelled as parameters of the functions that
perform them.
-/

/-! ## Models of Go standard-library string functions -/

/-- Accumulator pass behind goFields: words are collected between runs of
whitespace. -/
def goFieldsData : List Char → List Char → List String
  | [], acc => if acc = [] then [] else [⟨acc.reverse⟩]
  | c :: rest, acc =>
    if c.isWhitespace then
      if acc = [] then goFieldsData rest [] else ⟨acc.reverse⟩ :: goFieldsData rest []
    else goFieldsData rest (c :: acc)

/-- Model of Go strings.Fields: split around runs of whitespace. -/
def goFields (s : String) : List String :=
  goFieldsData s.data []

/-- Model of Go strings.TrimSuffix: remove the trailing suffix if present,
otherwise return the string unchanged. -/
def goTrimSuffix (s suf : String) : String :=
  if suf.data <:+ s.data then ⟨s.data.take (s.data.length - suf.data.length)⟩ else s

/-- Model of Go strings.TrimRight with a cutset: drop trailing characters
that belong to the cutset. -/
def goTrimRight (s : String) (cutset : List Char) : String :=
  ⟨(s.data.reverse.dropWhile (fun c => cutset.contains c)).reverse⟩

/-- Model of Go strings.Trim with a cutset: drop leading and trailing
characters that belong to the cutset. -/
def goTrim (s : String) (cutset : List Char) : String :=
  ⟨((s.data.dropWhile (fun c => cutset.contains c)).reverse.dropWhile
      (fun c => cutset.contains c)).reverse⟩

/-- Go map lookup over an association-list model: first binding wins. -/
def mapLookup {α : Type} : List (String × α) → String → Option α
  | [], _ => none
  | (k, v) :: rest, key => if key = k then some v else mapLookup rest key

/-- Go map store over an association-list model: a new binding is prepended,
shadowing any older binding for the same key. -/
def mapStore {α : Type} (m : List (String × α)) (k : String) (v : α) :
    List (String × α) :=
  (k, v) :: m

/-- Go map read with the zero value for a missing key (empty string). -/
def mapGetD (m : List (String × String)) (k : String) : String :=
  (mapLookup m k).getD ""

theorem mapLookup_store {α : Type} (m : List (String × α)) (k : String) (v : α)
    (u : String) :
    mapLookup (mapStore m k v) u = if u = k then some v else mapLookup m u := by
  simp [mapStore, mapLookup]

theorem str_data_append (s t : String) : (s ++ t).data = s.data ++ t.data := by
  cases s
  cases t
  rfl

theorem goTrimSuffix_append (s t : String) : goTrimSuffix (s ++ t) t = s := by
  unfold goTrimSuffix
  rw [str_data_append, if_pos (List.suffix_append s.data t.data)]
  simp [List.take_left]

/-! ## DNS message model and loop detector (src/unnamed/part_002, package cli)

The detector state is the loop table, a Go map from upstream UID to bool,
guarded in the source by a mutex that sequential state passing renders
unnecessary here. -/

/-- A single DNS question as the loop detector sees it. -/
structure DnsQuestion where
  name : String
  qtype : Nat
  qclass : Nat
deriving DecidableEq

/-- A DNS message restricted to the parts the loop detector inspects. -/
structure DnsMsg where
  question : List DnsQuestion
deriving DecidableEq

/-- dns.TypeTXT from the miekg/dns wire constants. -/
def typeTXT : Nat := 16

/-- dns.ClassINET from the miekg/dns wire constants. -/
def classINET : Nat := 1

/-- loopTestDomain constant from the source. -/
def loopTestDomain : String := ".test"

/-- loopTestQtype constant from the source (dns.TypeTXT). -/
def loopTestQtype : Nat := typeTXT

/-- The loop table: upstream UID to loop bit. -/
def LoopTable : Type := List (String × Bool)

/-- UpstreamConfig restricted to what the loop detector uses.  Modelled from
the spec: the UID() method (a stable hash of name and endpoint) lives in
repository code outside src/, so the UID is carried as an abstract stable
string field. -/
structure UpstreamConfig where
  uid : String
deriving DecidableEq

/-- Model of dns.Fqdn from miekg/dns: append a trailing dot unless the name
already ends with one (the escaping subtleties of IsFqdn do not arise for
the names built here). -/
def fqdn (s : String) : String :=
  if s.data.getLast? = some '.' then s else s ++ "."

/-- loopTestMsg from the source: a TXT/IN question for fqdn(uid + ".test"). -/
def loopTestMsg (uid : String) : DnsMsg :=
  ⟨[⟨fqdn (uid ++ loopTestDomain), loopTestQtype, classINET⟩]⟩

/-- isLoop from the source: read the loop bit, absent key reads as false. -/
def isLoop (loop : LoopTable) (uc : UpstreamConfig) : Bool :=
  (mapLookup loop uc.uid).getD false

/-- detectLoop from the source: on a single-question TXT message, trim a
trailing dot and the ".test" suffix from the name; if the remaining string
is a key of the loop table, set its bit to true (the source stores the
comma-ok bit, which is true exactly when the key is present). -/
def detectLoop (loop : LoopTable) (msg : DnsMsg) : LoopTable :=
  match msg.question with
  | [q] =>
    if q.qtype ≠ loopTestQtype then loop
    else
      let unFQDNname := goTrimSuffix q.name "."
      let uid := goTrimSuffix unFQDNname loopTestDomain
      match mapLookup loop uid with
      | some _ => mapStore loop uid true
      | none => loop
  | _ => loop

/-- The table-mutating phase of checkDnsLoop from the source: every
configured upstream's loop bit is stored as false before the probes are
sent.  The probe sending itself is network I/O and does not touch the
table. -/
def checkDnsLoopSeed (loop : LoopTable) : List UpstreamConfig → LoopTable
  | [] => loop
  | uc :: rest => checkDnsLoopSeed (mapStore loop uc.uid false) rest

theorem checkDnsLoopSeed_lookup (cfg : List UpstreamConfig) :
    ∀ (loop : LoopTable) (u : String),
      mapLookup (checkDnsLoopSeed loop cfg) u =
        if u ∈ cfg.map UpstreamConfig.uid then some false else mapLookup loop u := by
  induction cfg with
  | nil => intro loop u; simp [checkDnsLoopSeed]
  | cons uc rest ih =>
    intro loop u
    by_cases hmem : u ∈ rest.map UpstreamConfig.uid
    · simp [checkDnsLoopSeed, ih, hmem]
    · by_cases heq : u = uc.uid
      · simp [checkDnsLoopSeed, ih, hmem, mapLookup_store, heq]
      · simp [checkDnsLoopSeed, ih, hmem, mapLookup_store, heq]

theorem detectLoop_cases (loop : LoopTable) (msg : DnsMsg) :
    detectLoop loop msg = loop ∨
      ∃ uid b, mapLookup loop uid = some b ∧
        detectLoop loop msg = mapStore loop uid true := by
  unfold detectLoop
  match msg with
  | ⟨[]⟩ => exact Or.inl rfl
  | ⟨[q]⟩ =>
    by_cases hq : q.qtype ≠ loopTestQtype
    · simp [hq]
    · simp only [hq, if_false]
      cases hl : mapLookup loop (goTrimSuffix (goTrimSuffix q.name ".") loopTestDomain) with
      | none => simp [hl]
      | some b =>
        refine Or.inr ⟨_, b, hl, ?_⟩
        simp [hl]
  | ⟨q₁ :: q₂ :: rest⟩ => exact Or.inl rfl

theorem loopTestMsg_name (uid : String) :
    fqdn (uid ++ loopTestDomain) = (uid ++ loopTestDomain) ++ "." := by
  unfold fqdn
  rw [if_neg]
  intro h
  rw [str_data_append] at h
  have hldata : loopTestDomain.data = ['.', 't', 'e', 's', 't'] := rfl
  rw [hldata] at h
  have hsplit : uid.data ++ ['.', 't', 'e', 's', 't'] =
      (uid.data ++ ['.', 't', 'e', 's']) ++ ['t'] := by
    simp
  rw [hsplit, List.getLast?_concat] at h
  exact absurd (Option.some.inj h) (by decide)

theorem loopTestMsg_trim (uid : String) :
    goTrimSuffix (goTrimSuffix (fqdn (uid ++ loopTestDomain)) ".") loopTestDomain
      = uid := by
  rw [loopTestMsg_name, goTrimSuffix_append, goTrimSuffix_append]

/-- C1 counterexample: an upstream whose loop bit is true has the bit reset
to false by the seeding phase of the very next checkDnsLoop cycle. -/
theorem checkDnsLoop_clears_loop_flag :
    mapLookup (checkDnsLoopSeed [("u1", true)] [⟨"u1"⟩]) "u1" = some false ∧
      isLoop (checkDnsLoopSeed [("u1", true)] [⟨"u1"⟩]) ⟨"u1"⟩ = false := by
  constructor
  · rfl
  · rfl

/-- C1 (amended): detectLoop never clears a loop flag — a bit once true stays
true across every inbound query — but each checkDnsLoop cycle re-seeds the
bit of every configured upstream to false before probing. -/
theorem loop_flag_cleared_only_by_reseed :
    (∀ (loop : LoopTable) (msg : DnsMsg) (u : String),
       mapLookup loop u = some true →
       mapLookup (detectLoop loop msg) u = some true) ∧
    (∀ (loop : LoopTable) (cfg : List UpstreamConfig) (uc : UpstreamConfig),
       uc ∈ cfg → mapLookup (checkDnsLoopSeed loop cfg) uc.uid = some false) := by
  constructor
  · intro loop msg u hu
    rcases detectLoop_cases loop msg with h | ⟨uid, b, hl, h⟩
    · rw [h]; exact hu
    · rw [h, mapLookup_store]
      by_cases heq : u = uid
      · simp [heq]
      · simp [heq, hu]
  · intro loop cfg uc hmem
    rw [checkDnsLoopSeed_lookup]
    rw [if_pos (List.mem_map_of_mem UpstreamConfig.uid hmem)]

theorem loop_flag_cleared_only_by_reseed_witness :
    mapLookup (detectLoop [("a", true)] ⟨[]⟩) "a" = some true ∧
      mapLookup (checkDnsLoopSeed [] [⟨"b"⟩]) "b" = some false :=
  ⟨loop_flag_cleared_only_by_reseed.1 [("a", true)] ⟨[]⟩ "a" (by decide),
   loop_flag_cleared_only_by_reseed.2 [] [⟨"b"⟩] ⟨"b"⟩ (by decide)⟩

/-- C2: for an upstream seeded by a checkDnsLoop cycle, observing the probe
query (the TXT question for fqdn(uid + ".test")) inbound via detectLoop sets
the upstream's loop bit to true, and isLoop then reports true. -/
theorem probe_observed_sets_loop (loop : LoopTable) (cfg : List UpstreamConfig)
    (uc : UpstreamConfig) (hmem : uc ∈ cfg) :
    mapLookup (detectLoop (checkDnsLoopSeed loop cfg) (loopTestMsg uc.uid)) uc.uid
        = some true ∧
      isLoop (detectLoop (checkDnsLoopSeed loop cfg) (loopTestMsg uc.uid)) uc = true := by
  have hseed : mapLookup (checkDnsLoopSeed loop cfg) uc.uid = some false := by
    rw [checkDnsLoopSeed_lookup]
    rw [if_pos (List.mem_map_of_mem UpstreamConfig.uid hmem)]
  have hdet : detectLoop (checkDnsLoopSeed loop cfg) (loopTestMsg uc.uid) =
      mapStore (checkDnsLoopSeed loop cfg) uc.uid true := by
    unfold detectLoop loopTestMsg
    simp only [loopTestMsg_trim, hseed]
    rw [if_neg (by simp)]
  rw [hdet]
  constructor
  · rw [mapLookup_store, if_pos rfl]
  · unfold isLoop
    rw [mapLookup_store, if_pos rfl]
    rfl

theorem probe_observed_sets_loop_witness :
    mapLookup (detectLoop (checkDnsLoopSeed [] [⟨"up0"⟩]) (loopTestMsg "up0")) "up0"
        = some true ∧
      isLoop (detectLoop (checkDnsLoopSeed [] [⟨"up0"⟩]) (loopTestMsg "up0")) ⟨"up0"⟩
        = true :=
  probe_observed_sets_loop [] [⟨"up0"⟩] ⟨"up0"⟩ (by decide)

/-- C9: an inbound TXT query for x + ".test." where x is not a key of the
loop table leaves the table literally unchanged, and no detectLoop call ever
inserts a new key. -/
theorem detectLoop_never_inserts (loop : LoopTable) (x : String)
    (hx : mapLookup loop x = none) :
    detectLoop loop ⟨[⟨(x ++ loopTestDomain) ++ ".", loopTestQtype, classINET⟩]⟩
        = loop ∧
      ∀ (msg : DnsMsg) (u : String),
        (mapLookup (detectLoop loop msg) u = none ↔ mapLookup loop u = none) := by
  constructor
  · unfold detectLoop
    simp only [goTrimSuffix_append, hx]
    rw [if_neg (by simp)]
  · intro msg u
    rcases detectLoop_cases loop msg with h | ⟨uid, b, hl, h⟩
    · rw [h]
    · rw [h, mapLookup_store]
      by_cases heq : u = uid
      · subst heq
        simp [hl]
      · simp [heq]

theorem detectLoop_never_inserts_witness :
    detectLoop [("known", false)]
        ⟨[⟨("stranger" ++ loopTestDomain) ++ ".", loopTestQtype, classINET⟩]⟩
      = [("known", false)] :=
  (detectLoop_never_inserts [("known", false)] "stranger" (by decide)).1

/-! ## DoH/DoH3 resolver (src/unnamed/part_000, package ctrld)

The HTTP round trip, the wire-format pack/unpack and the per-qtype
transport caches are I/O and library state; they enter the model as the
fields of a DohEnv environment.  The control flow of dohResolver.Resolve
and of addHeader is translated line by line. -/

/-- Header name constants from the source. -/
def dohMacHeader : String := "x-cd-mac"

def dohIPHeader : String := "x-cd-ip"

def dohHostHeader : String := "x-cd-host"

def dohOsHeader : String := "x-cd-os"

def headerApplicationDNS : String := "application/dns-message"

/-- EncodeOsNameMap from the source. -/
def encodeOsNameMap : List (String × String) :=
  [("windows", "1"), ("darwin", "2"), ("linux", "3"), ("freebsd", "4")]

/-- EncodeArchNameMap from the source. -/
def encodeArchNameMap : List (String × String) :=
  [("amd64", "1"), ("arm64", "2"), ("arm", "3"), ("386", "4"),
   ("mips", "5"), ("mipsle", "6"), ("mips64", "7")]

/-- dohOsHeaderValue from the source: strings.Join of the encoded OS code,
the encoded arch code and the distribution, separated by "-".  The
process-wide constants runtime.GOOS, runtime.GOARCH and osinfo Dist are
parameters of the model. -/
def dohOsHeaderValue (goos goarch dist : String) : String :=
  String.intercalate "-" [mapGetD encodeOsNameMap goos, mapGetD encodeArchNameMap goarch, dist]

/-- ClientInfo from the source (package ctrld). -/
structure ClientInfo where
  mac : String
  ip : String
  hostname : String
  self : Bool
deriving DecidableEq

/-- HTTP request headers, modelled as the map http.Header behaves as under
Set: the latest Set for a key wins. -/
def Headers : Type := List (String × String)

/-- addHeader from the source.  The context value lookup of ClientInfoCtxKey
is modelled by the optional ci argument (the ok-and-non-nil check of the
source collapses into the option); the once-computed x-cd-os value is the
osVal argument.  The debug logging at the end does not touch the request. -/
def addHeader (ci : Option ClientInfo) (sendClientInfo : Bool) (osVal : String)
    (req : Headers) : Headers :=
  let req := mapStore req "Content-Type" headerApplicationDNS
  let req := mapStore req "Accept" headerApplicationDNS
  let req := mapStore req dohOsHeader osVal
  if sendClientInfo then
    match ci with
    | some c =>
      let req := if c.mac ≠ "" then mapStore req dohMacHeader c.mac else req
      let req := if c.ip ≠ "" then mapStore req dohIPHeader c.ip else req
      let req := if c.hostname ≠ "" then mapStore req dohHostHeader c.hostname else req
      if c.self then mapStore req dohOsHeader osVal else req
    | none => req
  else req

/-- http.StatusOK. -/
def httpStatusOK : Nat := 200

/-- The part of an HTTP response that Resolve inspects. -/
structure HTTPResponse where
  statusCode : Nat
deriving DecidableEq

/-- The error outcomes of dohResolver.Resolve, in source order. -/
inductive DohError where
  | packError (e : String)
  | requestError (e : String)
  | doh3Unsupported
  | readError (e : String)
  | wrongResponse (body : String) (status : Nat)
  | unpackError (e : String)
deriving DecidableEq

/-- The I/O environment of one dohResolver.Resolve call: the outcome of
msg.Pack, the cached per-qtype HTTP/3 round-tripper (for this query's
qtype), the outcome of the HTTP round trip, the outcome of reading the
response body, and the behaviour of answer.Unpack on that body. -/
structure DohEnv where
  packResult : Except String String
  doh3Transport : Option Unit
  httpResult : Except String HTTPResponse
  readResult : Except String String
  unpackResult : String → Except String DnsMsg

/-- dohResolver.Resolve from the source: pack the query, for DoH3 fail when
no HTTP/3 round-tripper is cached, perform the request, read the body, fail
carrying body and status unless the status is exactly http.StatusOK, and
otherwise unpack the body as the answer. -/
def dohResolve (isDoH3 : Bool) (env : DohEnv) : Except DohError DnsMsg :=
  match env.packResult with
  | .error e => .error (.packError e)
  | .ok _ =>
    if isDoH3 && env.doh3Transport.isNone then .error .doh3Unsupported
    else
      match env.httpResult with
      | .error e => .error (.requestError e)
      | .ok resp =>
        match env.readResult with
        | .error e => .error (.readError e)
        | .ok buf =>
          if resp.statusCode ≠ httpStatusOK then .error (.wrongResponse buf resp.statusCode)
          else
            match env.unpackResult buf with
            | .error e => .error (.unpackError e)
            | .ok answer => .ok answer

/-- Status classifier following the spec's words: a 2xx status. -/
def is2xxStatus (s : Nat) : Bool := 200 ≤ s && s < 300

/-- C3 counterexample: with SendClientInfo false the request still carries
the x-cd-os header — addHeader sets it before the sendClientInfo branch. -/
theorem xcdos_header_present_without_sendClientInfo :
    mapLookup (addHeader none false (dohOsHeaderValue "linux" "amd64" "debian") [])
        dohOsHeader = some "3-1-debian" := by
  decide

/-- C3 (amended): every DoH/DoH3 request carries the x-cd-os header with
value os-arch-distribution, regardless of SendClientInfo and of the client
info in the context. -/
theorem xcdos_header_always_attached (ci : Option ClientInfo) (sendClientInfo : Bool)
    (goos goarch dist : String) (req : Headers) :
    mapLookup (addHeader ci sendClientInfo (dohOsHeaderValue goos goarch dist) req)
        dohOsHeader = some (dohOsHeaderValue goos goarch dist) := by
  unfold addHeader
  cases sendClientInfo with
  | false => simp [mapLookup_store]
  | true =>
    cases ci with
    | none => simp [mapLookup_store]
    | some c =>
      by_cases hm : c.mac ≠ "" <;> by_cases hi : c.ip ≠ "" <;>
        by_cases hh : c.hostname ≠ "" <;> cases hs : c.self <;>
          simp [hm, hi, hh, hs, mapLookup_store, dohOsHeader, dohMacHeader,
            dohIPHeader, dohHostHeader]

/-- C5 counterexample: a completed round trip with status 204 — a 2xx
status — still yields the status-and-body error, because the source
compares against http.StatusOK exactly. -/
theorem status204_yields_error :
    dohResolve false
        ⟨.ok "query", none, .ok ⟨204⟩, .ok "body", fun _ => .ok ⟨[]⟩⟩
      = .error (.wrongResponse "body" 204) ∧ is2xxStatus 204 = true := by
  constructor
  · rfl
  · rfl

/-- C5 (amended): once the round trip completes and the body is read, the
result is the error carrying body and status exactly when the status is not
200; on status 200 the body is unpacked as the answer. -/
theorem resolve_status_check (isDoH3 : Bool) (env : DohEnv) (w buf : String)
    (resp : HTTPResponse) (hpack : env.packResult = .ok w)
    (ht : isDoH3 = true → env.doh3Transport ≠ none)
    (hhttp : env.httpResult = .ok resp) (hread : env.readResult = .ok buf) :
    (resp.statusCode ≠ 200 →
       dohResolve isDoH3 env = .error (.wrongResponse buf resp.statusCode)) ∧
    (resp.statusCode = 200 →
       dohResolve isDoH3 env =
         match env.unpackResult buf with
         | .error e => .error (.unpackError e)
         | .ok answer => .ok answer) := by
  have htr : (isDoH3 && env.doh3Transport.isNone) = false := by
    cases h3 : isDoH3 with
    | false => rfl
    | true =>
      have hne := ht h3
      cases htrans : env.doh3Transport with
      | none => exact absurd htrans hne
      | some t => simp [htrans]
  obtain ⟨pr, dt, hresp, rres, ur⟩ := env
  simp only at hpack hhttp hread htr
  subst hpack hhttp hread
  constructor
  · intro hne
    simp [dohResolve, htr, hne, httpStatusOK]
  · intro heq
    simp [dohResolve, htr, heq, httpStatusOK]

theorem resolve_status_check_witness :
    dohResolve false ⟨.ok "q", none, .ok ⟨500⟩, .ok "b", fun _ => .ok ⟨[]⟩⟩
      = .error (.wrongResponse "b" 500) :=
  (resolve_status_check false ⟨.ok "q", none, .ok ⟨500⟩, .ok "b", fun _ => .ok ⟨[]⟩⟩
    "q" "b" ⟨500⟩ rfl (by intro h; exact absurd h (by decide)) rfl rfl).1 (by decide)

/-- C8: for a DoH3 upstream with no cached HTTP/3 round-tripper, Resolve
fails with the transport-unavailable error, and the outcome is independent
of the HTTP round trip, body read and unpack — no HTTP request is
performed. -/
theorem doh3_no_transport_fails (env : DohEnv) (w : String)
    (hpack : env.packResult = .ok w) (ht : env.doh3Transport = none) :
    dohResolve true env = .error .doh3Unsupported ∧
      ∀ (hr : Except String HTTPResponse) (rr : Except String String)
        (ur : String → Except String DnsMsg),
        dohResolve true { env with httpResult := hr, readResult := rr, unpackResult := ur }
          = .error .doh3Unsupported := by
  constructor
  · unfold dohResolve
    rw [hpack]
    simp [ht]
  · intro hr rr ur
    unfold dohResolve
    simp only [hpack]
    simp [ht]

theorem doh3_no_transport_fails_witness :
    dohResolve true ⟨.ok "q", none, .ok ⟨200⟩, .ok "", fun _ => .ok ⟨[]⟩⟩
      = .error .doh3Unsupported :=
  (doh3_no_transport_fails ⟨.ok "q", none, .ok ⟨200⟩, .ok "", fun _ => .ok ⟨[]⟩⟩
    "q" rfl rfl).1

/-! ## DHCP lease-file discovery source (src/internal/clientinfo/dhcp.go)

The four sync.Maps of the dhcp struct become the four association lists of
DhcpTable; lineread.Reader and bufio.Scanner become folds over the list of
input lines. -/

/-- Model of Go strings.HasPrefix as a boolean on character lists. -/
def goStartsWith (s pre : String) : Bool :=
  pre.data.isPrefixOf s.data

/-- Model of Go strings.ToLower (ASCII case folding suffices here). -/
def goToLower (s : String) : String :=
  ⟨s.data.map Char.toLower⟩

/-- Model of Go strings.Split restricted to a one-character separator,
used by the library parsers below. -/
def splitOnCharAux (sep : Char) : List Char → List Char → List String
  | [], acc => [⟨acc.reverse⟩]
  | c :: rest, acc =>
    if c = sep then ⟨acc.reverse⟩ :: splitOnCharAux sep rest []
    else splitOnCharAux sep rest (c :: acc)

def splitOnChar (s : String) (sep : Char) : List String :=
  splitOnCharAux sep s.data []

/-- Decimal parser over characters, used to model the library's IPv4 octet
parsing. -/
def parseDecimal (l : List Char) : Option Nat :=
  if l = [] then none
  else if l.all Char.isDigit then
    some (l.foldl (fun n c => n * 10 + (c.toNat - 48)) 0)
  else none

def isHexDigitChar (c : Char) : Bool :=
  c.isDigit || ('a' ≤ c && c ≤ 'f') || ('A' ≤ c && c ≤ 'F')

/-- Modelled library function: success of net.ParseMAC, restricted to the
colon-separated EUI-48 form the lease files use. -/
def validMAC (s : String) : Bool :=
  let groups := splitOnChar s ':'
  groups.length == 6 && groups.all fun g => g.data.length == 2 && g.data.all isHexDigitChar

/-- Modelled library function: success of net.ParseIP, restricted to the
IPv4 dotted-quad form (four decimal octets up to 255, no leading zeros). -/
def validIP (s : String) : Bool :=
  let parts := splitOnChar s '.'
  parts.length == 4 && parts.all fun p =>
    match parseDecimal p.data with
    | some n => decide (n ≤ 255) && (p.data.length == 1 || p.data.head? != some '0')
    | none => false

/-- normalizeIP from the source: strings.Cut at "%" keeps the part before
the first "%" when one is present (dnsmasq interface suffixes). -/
def normalizeIP (s : String) : String :=
  if '%' ∈ s.data then ⟨s.data.takeWhile (· ≠ '%')⟩ else s

/-- normalizeHostname from the source: strings.Cut at "." keeps the first
label when the name carries a domain suffix. -/
def normalizeHostname (s : String) : String :=
  if '.' ∈ s.data then ⟨s.data.takeWhile (· ≠ '.')⟩ else s

/-- The dhcp struct's four lookup maps: mac2name, ip2name, ip (mac to ip)
and mac (ip to mac). -/
structure DhcpTable where
  mac2name : List (String × String)
  ip2name : List (String × String)
  ip : List (String × String)
  mac : List (String × String)
deriving DecidableEq

def emptyDhcpTable : DhcpTable := ⟨[], [], [], []⟩

/-- The per-line body of dnsmasqReadClientInfoReader, after strings.Fields:
skip short lines and lines whose second field is not a MAC; blank the IP
when it does not parse; store the MAC-IP pair both ways; skip the hostname
when it is "*", otherwise store the normalized hostname under both keys. -/
def dnsmasqFields (d : DhcpTable) (fields : List String) : DhcpTable :=
  match fields with
  | _expiry :: macF :: ipF :: hostnameF :: _rest =>
    if ¬ (validMAC macF = true) then d
    else
      let ip0 := normalizeIP ipF
      let ip := if validIP ip0 then ip0 else ""
      let d1 := { d with mac := mapStore d.mac ip macF, ip := mapStore d.ip macF ip }
      if hostnameF = "*" then d1
      else
        let nm := normalizeHostname hostnameF
        { d1 with mac2name := mapStore d1.mac2name macF nm,
                  ip2name := mapStore d1.ip2name ip nm }
  | _ => d

/-- One lease-file line of dnsmasqReadClientInfoReader. -/
def dnsmasqLine (d : DhcpTable) (line : String) : DhcpTable :=
  dnsmasqFields d (goFields line)

/-- dnsmasqReadClientInfoReader over a whole file, presented as its lines. -/
def dnsmasqRun (d : DhcpTable) (lines : List String) : DhcpTable :=
  lines.foldl dnsmasqLine d

/-- The scanner state of iscDHCPReadClientInfoReader. -/
structure IscState where
  ip : String
  mac : String
  hostname : String
deriving DecidableEq

/-- One bufio.Scanner line of iscDHCPReadClientInfoReader: a closing brace
stores the accumulated MAC-IP pair both ways and, only when the hostname is
non-empty and not "*", stores the hostname (normalized for the MAC key, raw
for the IP key, exactly as the source does) and resets the state; other
lines update one state field according to their first word. -/
def iscStep (acc : DhcpTable × IscState) (line : String) : DhcpTable × IscState :=
  let d := acc.1
  let st := acc.2
  if goStartsWith line "\x7d" then
    let d1 := { d with mac := mapStore d.mac st.ip st.mac, ip := mapStore d.ip st.mac st.ip }
    if st.hostname ≠ "" ∧ st.hostname ≠ "*" then
      let nm := normalizeHostname st.hostname
      ({ d1 with mac2name := mapStore d1.mac2name st.mac nm,
                 ip2name := mapStore d1.ip2name st.ip st.hostname },
       ⟨"", "", ""⟩)
    else (d1, st)
  else
    match goFields line with
    | f0 :: f1 :: rest =>
      if f0 = "lease" then
        let ip0 := normalizeIP (goToLower f1)
        let ip := if validIP ip0 then ip0 else ""
        (d, { st with ip := ip })
      else if f0 = "hardware" then
        match rest with
        | f2 :: _ =>
          let mac0 := goToLower (goTrimRight f2 [';'])
          let mac := if validMAC mac0 then mac0 else ""
          (d, { st with mac := mac })
        | [] => (d, st)
      else if f0 = "client-hostname" then
        (d, { st with hostname := goTrim f1 ['"', ';'] })
      else (d, st)
    | _ => (d, st)

/-- iscDHCPReadClientInfoReader over a whole file, presented as its lines. -/
def iscRun (d : DhcpTable) (st : IscState) (lines : List String) : DhcpTable × IscState :=
  lines.foldl iscStep (d, st)

theorem takeWhile_append_mark (c : Char) (m : List Char) :
    ∀ (l : List Char), c ∉ l → (l ++ c :: m).takeWhile (· ≠ c) = l := by
  intro l
  induction l with
  | nil =>
    intro _
    have hpc : decide (c ≠ c) = false := by simp
    simp only [List.nil_append, List.takeWhile, hpc]
  | cons a l ih =>
    intro h
    have ha : a ≠ c := fun hac => h (hac ▸ List.mem_cons_self a l)
    have hl : c ∉ l := fun hc => h (List.mem_cons_of_mem a hc)
    have hpa : decide (a ≠ c) = true := decide_eq_true ha
    simp only [List.cons_append, List.takeWhile, hpa]
    exact congrArg (List.cons a) (ih hl)

theorem normalizeIP_strip (ip iface : String) (h : '%' ∉ ip.data) :
    normalizeIP (ip ++ "%" ++ iface) = ip := by
  have hdata : (ip ++ "%" ++ iface).data = ip.data ++ '%' :: iface.data := by
    rw [str_data_append, str_data_append, List.append_assoc]
    rfl
  have hmem : '%' ∈ (ip ++ "%" ++ iface).data := by
    rw [hdata]
    exact List.mem_append_right _ (List.mem_cons_self _ _)
  unfold normalizeIP
  rw [if_pos hmem, hdata, takeWhile_append_mark '%' iface.data ip.data h]

/-- C7: the sample dnsmasq lease line with an interface suffix produces the
MAC-IP mappings with the suffix stripped and hostname host1; in general the
"%" suffix of the IP field is cut, and a "*" hostname field stores nothing
in either hostname map. -/
theorem dnsmasq_iface_suffix_and_star :
    (mapLookup (dnsmasqLine emptyDhcpTable
        "1700000000 aa:bb:cc:dd:ee:ff 192.168.1.10%eth0 host1 *").mac
        "192.168.1.10" = some "aa:bb:cc:dd:ee:ff" ∧
     mapLookup (dnsmasqLine emptyDhcpTable
        "1700000000 aa:bb:cc:dd:ee:ff 192.168.1.10%eth0 host1 *").ip
        "aa:bb:cc:dd:ee:ff" = some "192.168.1.10" ∧
     mapLookup (dnsmasqLine emptyDhcpTable
        "1700000000 aa:bb:cc:dd:ee:ff 192.168.1.10%eth0 host1 *").mac2name
        "aa:bb:cc:dd:ee:ff" = some "host1" ∧
     mapLookup (dnsmasqLine emptyDhcpTable
        "1700000000 aa:bb:cc:dd:ee:ff 192.168.1.10%eth0 host1 *").ip2name
        "192.168.1.10" = some "host1") ∧
    (∀ (ip iface : String), '%' ∉ ip.data → normalizeIP (ip ++ "%" ++ iface) = ip) ∧
    (∀ (d : DhcpTable) (e m ipf : String) (rest : List String),
       (dnsmasqFields d (e :: m :: ipf :: "*" :: rest)).mac2name = d.mac2name ∧
       (dnsmasqFields d (e :: m :: ipf :: "*" :: rest)).ip2name = d.ip2name) := by
  refine ⟨by decide, normalizeIP_strip, ?_⟩
  intro d e m ipf rest
  unfold dnsmasqFields
  by_cases hm : validMAC m = true
  · simp [hm]
  · simp [hm]

theorem dnsmasq_iface_suffix_and_star_witness :
    normalizeIP ("10.0.0.1" ++ "%" ++ "eth0") = "10.0.0.1" ∧
      (dnsmasqFields emptyDhcpTable
          ["9", "aa:bb:cc:dd:ee:ff", "10.0.0.1", "*"]).mac2name = [] :=
  ⟨dnsmasq_iface_suffix_and_star.2.1 "10.0.0.1" "eth0" (by decide),
   (dnsmasq_iface_suffix_and_star.2.2 emptyDhcpTable "9" "aa:bb:cc:dd:ee:ff"
      "10.0.0.1" []).1⟩

/-- C6 evaluation: an ISC dhcpd lease block whose client-hostname carries a
domain suffix ends with the normalized first label under the MAC key but the
raw suffixed name under the IP key — the source passes the un-normalized
variable to the ip2name store. -/
theorem isc_ip2name_not_normalized :
    mapLookup (iscRun emptyDhcpTable ⟨"", "", ""⟩
        ["lease 192.168.1.10 \x7b",
         "hardware ethernet aa:bb:cc:dd:ee:ff;",
         "client-hostname \"host1.lan\";",
         "\x7d"]).1.mac2name "aa:bb:cc:dd:ee:ff" = some "host1" ∧
    mapLookup (iscRun emptyDhcpTable ⟨"", "", ""⟩
        ["lease 192.168.1.10 \x7b",
         "hardware ethernet aa:bb:cc:dd:ee:ff;",
         "client-hostname \"host1.lan\";",
         "\x7d"]).1.ip2name "192.168.1.10" = some "host1.lan" ∧
    normalizeHostname "host1.lan" = "host1" := by
  refine ⟨by decide, by decide, by decide⟩

/-- C10: a lease block closing while the scanner's hostname is empty (no
client-hostname declaration) or "*" still stores the accumulated IP-MAC
pair both ways, and the scanner state is not reset — the same values carry
into the following block. -/
theorem isc_state_persists (d : DhcpTable) (st : IscState) (line : String)
    (hb : goStartsWith line "\x7d" = true)
    (hh : st.hostname = "" ∨ st.hostname = "*") :
    iscStep (d, st) line =
      ({ d with mac := mapStore d.mac st.ip st.mac,
                ip := mapStore d.ip st.mac st.ip }, st) := by
  have hc : ¬ (st.hostname ≠ "" ∧ st.hostname ≠ "*") := by
    rcases hh with h | h
    · exact fun hcon => hcon.1 h
    · exact fun hcon => hcon.2 h
  simp [iscStep, hb, hc]

theorem isc_state_persists_witness :
    iscStep (emptyDhcpTable, ⟨"192.168.0.9", "aa:bb:cc:dd:ee:01", ""⟩) "\x7d"
      = ({ emptyDhcpTable with
             mac := mapStore emptyDhcpTable.mac "192.168.0.9" "aa:bb:cc:dd:ee:01",
             ip := mapStore emptyDhcpTable.ip "aa:bb:cc:dd:ee:01" "192.168.0.9" },
         ⟨"192.168.0.9", "aa:bb:cc:dd:ee:01", ""⟩) :=
  isc_state_persists emptyDhcpTable ⟨"192.168.0.9", "aa:bb:cc:dd:ee:01", ""⟩ "\x7d"
    (by decide) (Or.inl rfl)

/-! ## Client-info table (src/internal/clientinfo/dhcp.go, Table part)

Table.init wires the discovery sources into ordered resolver lists; only
the hostname-resolver list matters to LookupHostname.  Whether each
source's own initialization succeeded (merlin.refresh, hf.init, dhcp.init,
ptr.refresh, mdns.init in the source) enters the model as a boolean, as do
the tri-state Discover* config pointers. -/

/-- The discovery sources that can appear in the hostname-resolver list. -/
inductive ClientSrc where
  | merlin
  | hostsfile
  | dhcp
  | arp
  | ptr
  | mdns
  | vni
deriving DecidableEq

/-- The configuration and initialization outcomes Table.init consults.  The
Option Bool fields model the tri-state Discover* pointers of the service
config (none is the nil pointer); clientID models the custom client ID
parsed from the cdUID; the Ok fields model whether each source initialized
without error. -/
structure TableEnv where
  discoverDHCPFlag : Option Bool
  discoverARPFlag : Option Bool
  discoverMDNSFlag : Option Bool
  discoverPtrFlag : Option Bool
  discoverHostsFlag : Option Bool
  clientID : String
  merlinOk : Bool
  hfOk : Bool
  dhcpOk : Bool
  ptrOk : Bool
  mdnsOk : Bool
deriving DecidableEq

/-- discoverDHCP from the source: nil pointer means true. -/
def discoverDHCP (t : TableEnv) : Bool :=
  match t.discoverDHCPFlag with
  | none => true
  | some b => b

/-- discoverARP from the source. -/
def discoverARP (t : TableEnv) : Bool :=
  match t.discoverARPFlag with
  | none => true
  | some b => b

/-- discoverMDNS from the source. -/
def discoverMDNS (t : TableEnv) : Bool :=
  match t.discoverMDNSFlag with
  | none => true
  | some b => b

/-- discoverPTR from the source. -/
def discoverPTR (t : TableEnv) : Bool :=
  match t.discoverPtrFlag with
  | none => true
  | some b => b

/-- discoverHosts from the source. -/
def discoverHosts (t : TableEnv) : Bool :=
  match t.discoverHostsFlag with
  | none => true
  | some b => b

/-- The hostnameResolvers list as Table.init builds it: with a custom
client ID only the self-discovery dhcp source is used; otherwise the Merlin
vendor hook is appended first (when DHCP or ARP discovery is on and its
refresh succeeded), then the hosts-file source, the DHCP source, the PTR
source, the mDNS source, and the VPN virtual-interface source last.  The
ARP source is appended only to the IP and MAC resolver lists, never to the
hostname list. -/
def hostnameResolverOrder (t : TableEnv) : List ClientSrc :=
  if t.clientID ≠ "" then [ClientSrc.dhcp]
  else
    (if (discoverDHCP t || discoverARP t) && t.merlinOk then [ClientSrc.merlin] else [])
    ++ (if discoverHosts t && t.hfOk then [ClientSrc.hostsfile] else [])
    ++ (if discoverDHCP t && t.dhcpOk then [ClientSrc.dhcp] else [])
    ++ (if discoverPTR t && t.ptrOk then [ClientSrc.ptr] else [])
    ++ (if discoverMDNS t && t.mdnsOk then [ClientSrc.mdns] else [])
    ++ (if discoverDHCP t || discoverARP t then [ClientSrc.vni] else [])

/-- A hostname-capable source as the HostnameResolver interface sees it:
lookups return the empty string when nothing is known. -/
structure HostnameSource where
  byIP : String → String
  byMac : String → String

/-- The loop body of Table.LookupHostname: walk the resolvers in order,
trying the IP and then the MAC at each, returning the first non-empty
hostname. -/
def lookupHostnameList (rs : List HostnameSource) (ip mac : String) : String :=
  match rs with
  | [] => ""
  | r :: rest =>
    if r.byIP ip ≠ "" then r.byIP ip
    else if r.byMac mac ≠ "" then r.byMac mac
    else lookupHostnameList rest ip mac

/-- Table.LookupHostname from the source, with the behaviour of each
discovery source supplied as a function table. -/
def tableLookupHostname (t : TableEnv) (fns : ClientSrc → HostnameSource)
    (ip mac : String) : String :=
  lookupHostnameList ((hostnameResolverOrder t).map fns) ip mac

/-- Refinement-side definition following the spec's words: the fixed
priority order is claimed to be hosts file first, then DHCP, ARP,
reverse-DNS, mDNS, the VPN virtual-interface table, and the router-vendor
hook last, filtered to the enabled sources. -/
def specHostnamePriorityOrder (t : TableEnv) : List ClientSrc :=
  (if discoverHosts t then [ClientSrc.hostsfile] else [])
    ++ (if discoverDHCP t then [ClientSrc.dhcp] else [])
    ++ (if discoverARP t then [ClientSrc.arp] else [])
    ++ (if discoverPTR t then [ClientSrc.ptr] else [])
    ++ (if discoverMDNS t then [ClientSrc.mdns] else [])
    ++ [ClientSrc.vni]
    ++ [ClientSrc.merlin]

/-- Refinement-side lookup following the spec's claimed order. -/
def specLookupHostname (t : TableEnv) (fns : ClientSrc → HostnameSource)
    (ip mac : String) : String :=
  lookupHostnameList ((specHostnamePriorityOrder t).map fns) ip mac

/-- An environment with every discovery source enabled and initialized. -/
def allOnEnv : TableEnv :=
  ⟨none, none, none, none, none, "", true, true, true, true, true⟩

/-- Source behaviours where both the Merlin hook and the hosts file know a
hostname for the same IP. -/
def twoNamesFns : ClientSrc → HostnameSource
  | ClientSrc.merlin =>
    ⟨fun ip => if ip = "192.168.1.5" then "merlin-name" else "", fun _ => ""⟩
  | ClientSrc.hostsfile =>
    ⟨fun ip => if ip = "192.168.1.5" then "hosts-name" else "", fun _ => ""⟩
  | _ => ⟨fun _ => "", fun _ => ""⟩

/-- C4 counterexample: with every source enabled, LookupHostname answers
from the Merlin vendor hook even though the hosts file also has a value —
the code walks the vendor hook first, not last as the claim's priority
order demands. -/
theorem lookupHostname_vendor_hook_first :
    tableLookupHostname allOnEnv twoNamesFns "192.168.1.5" "" = "merlin-name" ∧
      specLookupHostname allOnEnv twoNamesFns "192.168.1.5" "" = "hosts-name" ∧
      ("merlin-name" : String) ≠ "hosts-name" := by
  refine ⟨by decide, by decide, by decide⟩

/-- C4 (amended): with every source enabled and initialized the hostname
walk order is Merlin hook, hosts file, DHCP, reverse-DNS, mDNS, VPN
virtual-interface (ARP never serves hostnames), and LookupHostname returns
the first non-empty per-source result — IP tried before MAC at each
source — or the empty string when every source comes up empty. -/
theorem lookupHostname_order_and_first_nonempty :
    hostnameResolverOrder allOnEnv =
        [ClientSrc.merlin, ClientSrc.hostsfile, ClientSrc.dhcp,
         ClientSrc.ptr, ClientSrc.mdns, ClientSrc.vni] ∧
      ∀ (rs : List HostnameSource) (ip mac : String),
        lookupHostnameList rs ip mac =
          ((rs.map fun r => if r.byIP ip ≠ "" then r.byIP ip else r.byMac mac).filter
              (· ≠ "")).headD "" := by
  constructor
  · decide
  · intro rs ip mac
    induction rs with
    | nil => rfl
    | cons r rest ih =>
      by_cases hip : r.byIP ip ≠ ""
      · simp [lookupHostnameList, hip]
      · by_cases hmac : r.byMac mac ≠ ""
        · have hip0 : r.byIP ip = "" := by
            by_contra hne
            exact hip hne
          simp [lookupHostnameList, hip0, hmac]
        · simp only [ne_eq, not_not] at hip hmac
          simp [lookupHostnameList, hip, hmac, ih]
